import Mathlib

/-!
Shallow embedding of the streaming-proxy repository (FastAPI proxy for
Azure OpenAI and AWS Bedrock) and proofs about its core: the streaming
transcoders/pumps (`stream_response_generator` in `proxy/routers/azure.py`,
`bedrock_stream_generator` and `serialize_event` in
`proxy/routers/bedrock.py`), the credential cache (`get_credentials`),
the operation-name transform (`operation_to_method`) and the Azure
dispatcher's `stream_options` handling (`azure_proxy`).

The source file `proxy/routers/bedrock.py` as shipped is textually mangled
(an orphaned fragment at lines 13-14, a deleted `try:` line in
`bedrock_runtime`, and lines 215-238 of `bedrock_stream_generator`
uniformly dedented by four spaces, leaving `if "metadata" in event:` with a
body at its own indentation level). The embedding below follows the
evident original layout: lines 215-238 re-indented by four spaces, which
places the metadata/chunk/contentBlockDelta handling inside the
`async for event in stream:` loop, consistent with the surrounding code
and the per-event comments attached to those lines.

Python values flowing through the proxy are modelled by the `Json`
inductive below; `bytes` values (Bedrock event payloads) carry their UTF-8
decoding. Machine-level Python behaviours that only arise on inputs
outside every claim (floats in JSON numbers, `TypeError` on adding
non-ints, `in` on non-dict containers raising) are noted at the definition
they would affect.
-/

/-- A Python/JSON value as it flows through the proxy.  `bytes s` is a
Python `bytes` object whose UTF-8 decoding is `s` (Bedrock event payloads);
`obj` is a Python dict as an insertion-ordered association list with
distinct keys, matching dict semantics for the inputs the proxy sees. -/
inductive Json where
  | null : Json
  | bool : Bool → Json
  | num : Int → Json
  | str : String → Json
  | bytes : String → Json
  | arr : List Json → Json
  | obj : List (String × Json) → Json

instance : Inhabited Json := ⟨Json.null⟩

namespace Json

/-- Python `d[k]` / `k in d` support: first binding of `k` in a dict.
On a non-dict value the lookup is `none` (Python `k in v` on a list or
string tests membership/substring instead; no claim exercises that path,
and where the source would raise `TypeError` the claims never reach). -/
def dictGet : Json → String → Option Json
  | .obj kvs, k => kvs.lookup k
  | _, _ => none

/-- Python `d.get(k, default)`. -/
def getD (j : Json) (k : String) (d : Json) : Json :=
  (j.dictGet k).getD d

/-- Python dict assignment `d[k] = v`: overwrite in place if the key
exists (keeping its position), else append. -/
def objSet : List (String × Json) → String → Json → List (String × Json)
  | [], k, v => [(k, v)]
  | (k', v') :: rest, k, v =>
    if k' = k then (k, v) :: rest else (k', v') :: objSet rest k v

/-- Python truthiness of a value (`if x:`). -/
def truthy : Json → Bool
  | .null => false
  | .bool b => b
  | .num n => n != 0
  | .str s => s != ""
  | .bytes s => s != ""
  | .arr xs => !xs.isEmpty
  | .obj kvs => !kvs.isEmpty

/-- The string carried by a `str` value, `""` otherwise.  Used where the
source does `text += v`: on a non-string `v` Python would raise
`TypeError` inside the transcoding `try` (swallowed, no append), which
coincides with appending `""`. -/
def asString : Json → String
  | .str s => s
  | _ => ""

/-- The integer carried by a `num` value, `0` otherwise.  Token counters
in the source are plain Python ints on every input the claims exercise. -/
def toIntD : Json → Int
  | .num n => n
  | _ => 0

end Json

/-- JSON string escaping as `json.dumps` performs it for the characters
the proxy's payloads contain (quote and backslash; control/non-ASCII
escapes are outside every claim's inputs). -/
def escapeChar (c : Char) : String :=
  if c = '"' then "\\\"" else if c = '\\' then "\\\\" else String.singleton c

def escapeString (s : String) : String :=
  String.join (s.data.map escapeChar)

mutual
/-- `json.dumps` with its default separators `", "` and `": "`.
`json.dumps` raises `TypeError` on a raw `bytes` value; in the generator
every emitted event first passes `serialize_event`, which decodes dict
payloads, so the `bytes` case is rendered like its decoding (unreachable
on the claims' inputs). -/
def json_dumps : Json → String
  | .null => "null"
  | .bool b => if b then "true" else "false"
  | .num n => toString n
  | .str s => "\"" ++ escapeString s ++ "\""
  | .bytes s => "\"" ++ escapeString s ++ "\""
  | .arr xs => "[" ++ dumpsArr xs ++ "]"
  | .obj kvs => "\x7b" ++ dumpsObj kvs ++ "\x7d"

def dumpsArr : List Json → String
  | [] => ""
  | [x] => json_dumps x
  | x :: y :: rest => json_dumps x ++ ", " ++ dumpsArr (y :: rest)

def dumpsObj : List (String × Json) → String
  | [] => ""
  | [(k, v)] => "\"" ++ escapeString k ++ "\": " ++ json_dumps v
  | (k, v) :: p :: rest =>
    "\"" ++ escapeString k ++ "\": " ++ json_dumps v ++ ", " ++ dumpsObj (p :: rest)
end

mutual
/-- `serialize_event` (bedrock.py lines 249-259): decode `bytes` values to
text, recurse into dict values, leave everything else (including lists)
unchanged. -/
def serialize_event : Json → Json
  | .bytes s => .str s
  | .obj kvs => .obj (serializeObj kvs)
  | v => v

def serializeObj : List (String × Json) → List (String × Json)
  | [] => []
  | (k, v) :: rest => (k, serialize_event v) :: serializeObj rest
end

/-! ### `json.loads`

A recursive-descent model of `json.loads` as the transcoder uses it
(`json.loads(chunk["bytes"])`, bedrock.py line 228): objects, arrays,
strings (with the basic escapes), `true`/`false`/`null` and integer
numerals.  Payloads with floats or `\u` escapes are outside every claim's
inputs (the model is slightly loose on numerals with leading zeros, which
no claim exercises).  Recursion is bounded by a fuel argument that is
ample for any input of the given length. -/

def isWs (c : Char) : Bool := c = ' ' || c = '\n' || c = '\t' || c = '\r'

def skipWs : List Char → List Char
  | [] => []
  | c :: rest => if isWs c then skipWs rest else c :: rest

/-- Parse the body of a JSON string after the opening quote, returning the
decoded text and the remainder after the closing quote. -/
def parseStringBody : List Char → Option (String × List Char)
  | [] => none
  | c :: rest =>
    if c = '"' then some ("", rest)
    else if c = '\\' then
      match rest with
      | [] => none
      | e :: rest' =>
        let esc : Option Char :=
          if e = '"' then some '"'
          else if e = '\\' then some '\\'
          else if e = '/' then some '/'
          else if e = 'n' then some '\n'
          else if e = 't' then some '\t'
          else if e = 'r' then some '\r'
          else none
        match esc with
        | none => none
        | some ch =>
          match parseStringBody rest' with
          | none => none
          | some (s, rem) => some (String.singleton ch ++ s, rem)
    else
      match parseStringBody rest with
      | none => none
      | some (s, rem) => some (String.singleton c ++ s, rem)

/-- Parse a nonempty run of decimal digits into a natural value. -/
def parseDigits (l : List Char) : Option (Int × List Char) :=
  let ds := l.takeWhile Char.isDigit
  let rest := l.dropWhile Char.isDigit
  if ds.isEmpty then none
  else some (ds.foldl (fun acc c => acc * 10 + ((c.toNat - 48 : Nat) : Int)) 0, rest)

/-- A numeral continued by `.`, `e` or `E` would be a float: outside the
model (no claim input carries one). -/
def floatCont : List Char → Bool
  | [] => false
  | c :: _ => c = '.' || c = 'e' || c = 'E'

mutual
def parseValue : Nat → List Char → Option (Json × List Char)
  | 0, _ => none
  | fuel + 1, l =>
    match skipWs l with
    | [] => none
    | c :: rest =>
      if c = '"' then
        match parseStringBody rest with
        | some (s, rem) => some (.str s, rem)
        | none => none
      else if c = '\x7b' then
        match skipWs rest with
        | '\x7d' :: rem => some (.obj [], rem)
        | l' => match parseMemberSeq fuel l' with
          | some (kvs, rem) => some (.obj kvs, rem)
          | none => none
      else if c = '[' then
        match skipWs rest with
        | ']' :: rem => some (.arr [], rem)
        | l' => match parseElemSeq fuel l' with
          | some (xs, rem) => some (.arr xs, rem)
          | none => none
      else if c = 't' then
        match rest with
        | 'r' :: 'u' :: 'e' :: rem => some (.bool true, rem)
        | _ => none
      else if c = 'f' then
        match rest with
        | 'a' :: 'l' :: 's' :: 'e' :: rem => some (.bool false, rem)
        | _ => none
      else if c = 'n' then
        match rest with
        | 'u' :: 'l' :: 'l' :: rem => some (.null, rem)
        | _ => none
      else if c = '-' then
        match parseDigits rest with
        | some (n, rem) => if floatCont rem then none else some (.num (-n), rem)
        | none => none
      else if c.isDigit then
        match parseDigits (c :: rest) with
        | some (n, rem) => if floatCont rem then none else some (.num n, rem)
        | none => none
      else none

/-- One or more `"key": value` members, ended by `\x7d`. -/
def parseMemberSeq : Nat → List Char → Option (List (String × Json) × List Char)
  | 0, _ => none
  | fuel + 1, l =>
    match skipWs l with
    | '"' :: rest =>
      match parseStringBody rest with
      | none => none
      | some (k, rem1) =>
        match skipWs rem1 with
        | ':' :: rem2 =>
          match parseValue fuel rem2 with
          | none => none
          | some (v, rem3) =>
            match skipWs rem3 with
            | ',' :: rem4 =>
              match parseMemberSeq fuel rem4 with
              | some (kvs, rem5) => some ((k, v) :: kvs, rem5)
              | none => none
            | '\x7d' :: rem4 => some ([(k, v)], rem4)
            | _ => none
        | _ => none
    | _ => none

/-- One or more array elements, ended by `]`. -/
def parseElemSeq : Nat → List Char → Option (List Json × List Char)
  | 0, _ => none
  | fuel + 1, l =>
    match parseValue fuel l with
    | none => none
    | some (v, rem) =>
      match skipWs rem with
      | ',' :: rem2 =>
        match parseElemSeq fuel rem2 with
        | some (xs, rem3) => some (v :: xs, rem3)
        | none => none
      | ']' :: rem2 => some ([v], rem2)
      | _ => none
end

/-- `json.loads`: parse a complete document, requiring only whitespace
after the value. -/
def json_loads (s : String) : Option Json :=
  match parseValue (4 * (s.length + 1)) s.data with
  | some (v, rem) => if (skipWs rem).isEmpty then some v else none
  | none => none

/-! ### Usage accumulator and the Bedrock stream generator

`bedrock_stream_generator` (bedrock.py lines 188-247, with lines 215-238
re-indented as described in the header): per upstream event it yields one
JSON line, overwrites the token counters from a `metadata.usage` object,
and appends assembled text from `chunk.bytes` (priority `outputText`,
`completion`, `delta.text`) or from `contentBlockDelta.delta.text`.
The upstream stream is modelled as the list of events it yields before
either ending normally (`streamError = none`) or raising
(`streamError = some msg`), which the generator's `except` turns into one
`{"error": msg}` chunk.  A Python exception from a malformed event shape
(`.get` on a non-dict `metadata`, `in` on a non-container) would also land
in that `except`; no claim input reaches those shapes and the model reads
them as absent keys. -/

structure UsageState where
  input_tokens : Int
  output_tokens : Int
  output_text : String
deriving Repr, DecidableEq

def initUsage : UsageState := ⟨0, 0, ""⟩

/-- `json.loads(chunk["bytes"])`: accepts `bytes` or `str`; any other
value raises `TypeError`, swallowed by the surrounding bare `except`. -/
def loadsOfValue : Json → Option Json
  | .bytes s => json_loads s
  | .str s => json_loads s
  | _ => none

/-- One iteration of the `async for event in stream:` loop body
(bedrock.py lines 207-238): the yielded line and the updated accumulator. -/
def bedrockLoopBody (event : Json) (st : UsageState) : String × UsageState :=
  let emitted := json_dumps (serialize_event event) ++ "\n"
  let st1 :=
    match event.dictGet "metadata" with
    | some md =>
      let usage := md.getD "usage" (.obj [])
      { st with input_tokens := (usage.getD "inputTokens" (.num 0)).toIntD,
                output_tokens := (usage.getD "outputTokens" (.num 0)).toIntD }
    | none => st
  let st2 :=
    match event.dictGet "chunk" with
    | some chunk =>
      match chunk.dictGet "bytes" with
      | some b =>
        match loadsOfValue b with
        | some data =>
          match data.dictGet "outputText" with
          | some v => { st1 with output_text := st1.output_text ++ v.asString }
          | none =>
            match data.dictGet "completion" with
            | some v => { st1 with output_text := st1.output_text ++ v.asString }
            | none =>
              match data.dictGet "delta" with
              | some d =>
                match d.dictGet "text" with
                | some t => { st1 with output_text := st1.output_text ++ t.asString }
                | none => st1
              | none => st1
        | none => st1
      | none => st1
    | none =>
      match event.dictGet "contentBlockDelta" with
      | some cbd =>
        let delta := cbd.getD "delta" (.obj [])
        match delta.dictGet "text" with
        | some t => { st1 with output_text := st1.output_text ++ t.asString }
        | none => st1
      | none => st1
  (emitted, st2)

/-- Run the loop over a list of upstream events: yielded lines in order
and the final accumulator. -/
def bedrockRunEvents (st : UsageState) : List Json → List String × UsageState
  | [] => ([], st)
  | e :: es =>
    let r := bedrockLoopBody e st
    let rest := bedrockRunEvents r.2 es
    (r.1 :: rest.1, rest.2)

/-- What one run of a streaming generator produced: the chunks yielded to
the client in order, the log lines in order, and the exception escaping
the generator, if any. -/
structure StreamOutcome where
  chunks : List String
  logs : List String
  raised : Option String
deriving Repr, DecidableEq

/-- `json.dumps({"error": msg}) + "\n"` as yielded on the error paths. -/
def errorChunk (msg : String) : String :=
  json_dumps (.obj [("error", .str msg)]) ++ "\n"

/-- Finalization logging after the `try` (bedrock.py lines 244-247):
token log only when the sum is positive, output-text log always. -/
def bedrockFinishLog (st : UsageState) : List String :=
  (if st.input_tokens + st.output_tokens > 0 then
    ["Bedrock Stream Finished | Tokens: " ++ toString (st.input_tokens + st.output_tokens)
      ++ " (Input: " ++ toString st.input_tokens ++ ", Output: " ++ toString st.output_tokens ++ ")"]
  else []) ++ ["Bedrock Stream Output: " ++ st.output_text]

/-- `bedrock_stream_generator` (bedrock.py lines 188-247). `methodFound`
models `getattr(client, method_name, None)` being non-`None`; on the
not-found path the generator `return`s from inside the `try`, so the
finalization log lines do not run. -/
def bedrock_stream_generator (methodFound : Bool) (operation : String)
    (events : List Json) (streamError : Option String) : StreamOutcome :=
  if !methodFound then
    { chunks := [errorChunk ("Operation " ++ operation ++ " not found")],
      logs := [], raised := none }
  else
    let r := bedrockRunEvents initUsage events
    match streamError with
    | some msg =>
      { chunks := r.1 ++ [errorChunk msg],
        logs := ["Streaming Error: " ++ msg] ++ bedrockFinishLog r.2,
        raised := none }
    | none =>
      { chunks := r.1, logs := bedrockFinishLog r.2, raised := none }

/-! ### The Azure stream generator

`stream_response_generator` (azure.py lines 117-147).  Each SDK chunk is
already a structured value (`chunk.model_dump()`); the generator yields it
as one SSE line, logs the reported total when a truthy `usage` field
appears, and accumulates `choices[i].delta.content`.  The loop body is not
wrapped in any `try`/`except`: an upstream error propagates out of the
generator. -/

def azureChunkEmit (chunk : Json) : String := "data: " ++ json_dumps chunk ++ "\n\n"

/-- Log lines produced for one chunk (azure.py lines 131-134): a report
when `chunk_dict.get("usage", None)` is truthy. -/
def azureUsageLogs (chunk : Json) : List String :=
  let usage := chunk.getD "usage" .null
  if usage.truthy then
    ["Azure Stream Finished (Usage Reported) | Total Tokens: "
      ++ toString (usage.getD "total_tokens" (.num 0)).toIntD]
  else []

/-- Text contributed by one chunk (azure.py lines 137-142): for each
element of `choices`, the truthy `delta.content`.  (On a non-list
`choices` or non-string truthy `content` Python would raise out of the
generator; no claim input has those shapes.) -/
def azureChunkText (chunk : Json) : String :=
  let choices := match chunk.getD "choices" (.arr []) with | .arr xs => xs | _ => []
  choices.foldl (fun t choice =>
    let delta := choice.getD "delta" (.obj [])
    let content := delta.getD "content" (.str "")
    if content.truthy then t ++ content.asString else t) ""

/-- Run the Azure loop over the upstream chunks: yielded lines, log lines,
and accumulated `output_text`. -/
def azureRunEvents : List Json → List String × List String × String
  | [] => ([], [], "")
  | c :: cs =>
    let rest := azureRunEvents cs
    (azureChunkEmit c :: rest.1, azureUsageLogs c ++ rest.2.1, azureChunkText c ++ rest.2.2)

/-- `stream_response_generator` (azure.py lines 117-147): on normal
exhaustion it appends the `data: [DONE]` terminator and the final output
log; an upstream exception escapes the generator after the chunks yielded
so far, skipping both. -/
def stream_response_generator (events : List Json) (streamError : Option String) : StreamOutcome :=
  let r := azureRunEvents events
  match streamError with
  | some msg => { chunks := r.1, logs := r.2.1, raised := some msg }
  | none =>
    { chunks := r.1 ++ ["data: [DONE]\n\n"],
      logs := r.2.1 ++ ["Azure Stream Output: " ++ r.2.2],
      raised := none }

/-! ### The Azure dispatcher's `stream_options` handling -/

/-- azure.py lines 65-69 of `azure_proxy`: when the body requests a
stream, insert `stream_options = {"include_usage": true}` if the key is
absent, set `include_usage = true` in place if the present value is a
dict, and leave any other present value untouched (the `isinstance`
guard). -/
def azureEnsureStreamOptions (body : Json) : Json :=
  if (body.getD "stream" (.bool false)).truthy then
    match body.dictGet "stream_options" with
    | none =>
      match body with
      | .obj kvs => .obj (Json.objSet kvs "stream_options" (.obj [("include_usage", .bool true)]))
      | _ => body
    | some so =>
      match so with
      | .obj soKvs =>
        match body with
        | .obj kvs =>
          .obj (Json.objSet kvs "stream_options" (.obj (Json.objSet soKvs "include_usage" (.bool true))))
        | _ => body
      | _ => body
  else body

/-! ### The credential cache

`get_credentials` (bedrock.py lines 37-58).  Time is modelled in integer
seconds (`time.time()` and `Expiration.timestamp()` are reals; every claim
works at whole-second offsets).  The STS response the role-assumption call
would return is passed in as `fresh`; the cache cell `_creds_cache` is
explicit state. -/

structure STSCredentials where
  accessKeyId : String
  secretAccessKey : String
  sessionToken : String
  expiration : Int
deriving Repr, DecidableEq

structure CredsCache where
  data : Option STSCredentials
  expiry : Int
deriving Repr, DecidableEq

/-- The module-level initial value `{"data": None, "expiry": 0}`. -/
def initCredsCache : CredsCache := ⟨none, 0⟩

/-- Python truthiness of `ROLE_ARN` (`if not ROLE_ARN:`): unset or empty. -/
def roleConfigured : Option String → Bool
  | none => false
  | some s => s != ""

structure CredsResult where
  result : Option STSCredentials
  cache : CredsCache
  refreshed : Bool
deriving Repr, DecidableEq

/-- `get_credentials` as a function of the ambient `ROLE_ARN`, the current
time, the cache cell, and the credentials an `assume_role` call would
return; `refreshed` records whether the role-assumption network call ran. -/
def get_credentials (roleArn : Option String) (now : Int)
    (fresh : STSCredentials) (cache : CredsCache) : CredsResult :=
  if !roleConfigured roleArn then ⟨none, cache, false⟩
  else if cache.data.isSome && cache.expiry > now then ⟨cache.data, cache, false⟩
  else ⟨some fresh, ⟨some fresh, fresh.expiration - 300⟩, true⟩

/-! ### Concurrent executions of `get_credentials`

`get_credentials` has no lock: between a task's cache check and its cache
write it suspends at the awaited STS client/`assume_role` calls, so other
tasks run.  Each task is a two-phase machine: the synchronous check
(phase `start`), the suspended role-assumption call (phase `awaitingSts`),
and completion (phase `done`, writing the cache).  A schedule is the list
of task indices in the order the event loop resumes them; `refreshCalls`
counts tasks that entered the role-assumption call. -/

inductive TaskPhase where
  | start
  | awaitingSts
  | done (result : Option STSCredentials)
deriving Repr, DecidableEq

structure CredsWorld where
  cache : CredsCache
  tasks : List TaskPhase
  refreshCalls : Nat
deriving Repr, DecidableEq

/-- Resume task `i` once: from `start`, run the synchronous check
(bedrock.py lines 41-46) and either finish from the cache or suspend into
the STS call; from `awaitingSts`, complete the call and write the cache
(lines 48-58). -/
def stepTask (roleArn : Option String) (now : Int) (fresh : STSCredentials)
    (w : CredsWorld) (i : Nat) : CredsWorld :=
  match w.tasks.get? i with
  | none => w
  | some .start =>
    if !roleConfigured roleArn then
      { w with tasks := w.tasks.set i (.done none) }
    else if w.cache.data.isSome && w.cache.expiry > now then
      { w with tasks := w.tasks.set i (.done w.cache.data) }
    else
      { w with tasks := w.tasks.set i .awaitingSts, refreshCalls := w.refreshCalls + 1 }
  | some .awaitingSts =>
    { w with tasks := w.tasks.set i (.done (some fresh)),
             cache := ⟨some fresh, fresh.expiration - 300⟩ }
  | some (.done _) => w

def runSchedule (roleArn : Option String) (now : Int) (fresh : STSCredentials)
    (w : CredsWorld) (sched : List Nat) : CredsWorld :=
  sched.foldl (stepTask roleArn now fresh) w

def initWorld (n : Nat) : CredsWorld :=
  ⟨initCredsCache, List.replicate n .start, 0⟩

/-! ### `operation_to_method` -/

/-- `re.sub(r'(?<!^)(?=[A-Z])', '_', op)`: insert `_` before every
ASCII-uppercase character that is not at the start of the string. -/
def insertUnderscores : List Char → List Char
  | [] => []
  | c :: rest => c :: rest.flatMap (fun d => if d.isUpper then ['_', d] else [d])

/-- `operation_to_method` (bedrock.py lines 175-185): the `re.sub` above,
then `.lower()`, then `.replace("-", "_")`. -/
def operation_to_method (op : String) : String :=
  let snake := (insertUnderscores op.data).map Char.toLower
  String.mk (snake.map fun c => if c = '-' then '_' else c)

/-- The streaming allow-list check (bedrock.py line 73). -/
def isStreamMethod (methodName : String) : Bool :=
  methodName == "invoke_model_with_response_stream" || methodName == "converse_stream"

/-- `getattr(client, method_name, None)` against the set of methods the
client object offers (bedrock.py lines 96-98): `none` is the
404-equivalent condition. -/
def bedrockLookupMethod (available : List String) (op : String) : Option String :=
  let m := operation_to_method op
  if available.contains m then some m else none

/-- The PascalCase-to-snake_case transform as the specification words it:
insert an underscore before each interior uppercase letter, lowercase the
result, then replace every `-` with `_` — written as direct recursion, to
be compared with `operation_to_method` above. -/
def specSnakeTransform (op : String) : String :=
  String.mk (specLower (specInsert op.data))
where
  /-- insert `_` before each interior (non-initial) uppercase letter -/
  specInsert : List Char → List Char
    | [] => []
    | c :: rest => c :: specInsertAll rest
  specInsertAll : List Char → List Char
    | [] => []
    | c :: rest => (if c.isUpper then ['_', c] else [c]) ++ specInsertAll rest
  /-- lowercase, then `-` to `_`, character by character -/
  specLower : List Char → List Char
    | [] => []
    | c :: rest => (if c.toLower = '-' then '_' else c.toLower) :: specLower rest

/-! ### Derived observations used by the statements -/

def Json.isObj : Json → Bool
  | .obj _ => true
  | _ => false

/-- An event that triggers the usage overwrite: it carries a `metadata`
key (bedrock.py line 214). -/
def usageBearing (e : Json) : Bool := (e.dictGet "metadata").isSome

/-- The `(input_tokens, output_tokens)` pair the loop stores for a
metadata-bearing event (bedrock.py lines 215-217). -/
def metadataTokens (e : Json) : Int × Int :=
  match e.dictGet "metadata" with
  | some md =>
    let usage := md.getD "usage" (.obj [])
    ((usage.getD "inputTokens" (.num 0)).toIntD, (usage.getD "outputTokens" (.num 0)).toIntD)
  | none => (0, 0)

/-- The text a parsed `chunk.bytes` payload contributes, as the
specification words it: `outputText`, else `completion`, else
`delta.text`, first match wins. -/
def bedrockChunkText (data : Json) : String :=
  match data.dictGet "outputText" with
  | some v => v.asString
  | none =>
    match data.dictGet "completion" with
    | some v => v.asString
    | none =>
      match data.dictGet "delta" with
      | some d =>
        match d.dictGet "text" with
        | some t => t.asString
        | none => ""
      | none => ""

/-- A chunk whose `usage` field is truthy (azure.py line 132). -/
def azureUsageTruthy (c : Json) : Bool := (c.getD "usage" .null).truthy

/-- The Azure SSE terminator line (azure.py line 144). -/
def doneTerminator : String := "data: [DONE]\n\n"

/-! ## Helper lemmas -/

theorem bedrockLoopBody_fst (e : Json) (st : UsageState) :
    (bedrockLoopBody e st).1 = json_dumps (serialize_event e) ++ "\n" := rfl

theorem bedrockRunEvents_fst (st : UsageState) (events : List Json) :
    (bedrockRunEvents st events).1
      = events.map (fun e => json_dumps (serialize_event e) ++ "\n") := by
  induction events generalizing st with
  | nil => rfl
  | cons e es ih => simp [bedrockRunEvents, bedrockLoopBody_fst, ih]

theorem azureRunEvents_fst (events : List Json) :
    (azureRunEvents events).1 = events.map azureChunkEmit := by
  induction events with
  | nil => rfl
  | cons e es ih => simp [azureRunEvents, ih]

theorem azureRunEvents_logs (events : List Json) :
    (azureRunEvents events).2.1 = events.flatMap azureUsageLogs := by
  induction events with
  | nil => rfl
  | cons e es ih => simp [azureRunEvents, ih]

/-! ## Claim C1 -/

/-- C1, counterexample: the Azure generator has no `try`/`except` around
its loop (azure.py lines 117-147).  Feeding it one chunk and then an
upstream error yields exactly the one transcoded SSE data line — no
`\x7b"error": ...\x7d` chunk (the sole output chunk is an SSE `data:` line,
not a JSON error object) and no `data: [DONE]` terminator — the
finalization log never runs (`logs = []`), and the exception propagates
(`raised`).  This refutes the claim's assertion that the error-chunk,
stop-and-finalize behaviour "holds for both the Azure and the Bedrock
streaming generators". -/
theorem claim_C1_counterexample :
    (stream_response_generator [Json.obj [("choices", Json.arr [])]]
        (some "connection reset")).chunks
      = ["data: \x7b\"choices\": []\x7d\n\n"] ∧
    ("data: \x7b\"choices\": []\x7d\n\n" : String) ≠ doneTerminator ∧
    (stream_response_generator [Json.obj [("choices", Json.arr [])]]
        (some "connection reset")).logs = [] ∧
    (stream_response_generator [Json.obj [("choices", Json.arr [])]]
        (some "connection reset")).raised = some "connection reset" :=
  ⟨rfl, by decide, rfl, rfl⟩

/-- C1 (amended): only the Bedrock streaming generator has the claimed
behaviour.  For every upstream stream that raises after its events, the
Bedrock generator emits the transcoded events followed by exactly one
`\x7b"error": <message>\x7d` chunk, swallows the exception, and still runs the
finalization step (its last log line reports the accumulated text).  The
Azure generator instead forwards only the transcoded chunks, logs no
finalization line, and lets the exception propagate — its output ends
with neither an error marker nor the done-terminator. -/
theorem claim_C1_amended (events : List Json) (msg operation : String) :
    (bedrock_stream_generator true operation events (some msg)).chunks
      = events.map (fun e => json_dumps (serialize_event e) ++ "\n") ++ [errorChunk msg] ∧
    (bedrock_stream_generator true operation events (some msg)).logs.getLast?
      = some ("Bedrock Stream Output: " ++ (bedrockRunEvents initUsage events).2.output_text) ∧
    (bedrock_stream_generator true operation events (some msg)).raised = none ∧
    (stream_response_generator events (some msg)).chunks = events.map azureChunkEmit ∧
    (stream_response_generator events (some msg)).logs = events.flatMap azureUsageLogs ∧
    (stream_response_generator events (some msg)).raised = some msg := by
  refine ⟨?_, ?_, rfl, ?_, ?_, rfl⟩
  · simp [bedrock_stream_generator, bedrockRunEvents_fst]
  · simp only [bedrock_stream_generator, bedrockFinishLog, Bool.not_true, Bool.false_eq_true,
      if_false, List.singleton_append]
    rw [← List.cons_append, List.getLast?_concat]
  · simp [stream_response_generator, azureRunEvents_fst]
  · simp [stream_response_generator, azureRunEvents_logs]

/-! ## Claim C4 -/

/-- C4: with no upstream error, the chunks forwarded to the client are,
in order, exactly the transcoding results of the upstream events — the
Bedrock transcoder emits one JSON line per event and the Azure transcoder
one SSE line per chunk, with nothing dropped or reordered (no event
transcodes to `None` in this code) — and the Azure output additionally
ends with the `data: [DONE]` terminator line followed by a blank line. -/
theorem claim_C4 (events : List Json) (operation : String) :
    (stream_response_generator events none).chunks
      = events.map azureChunkEmit ++ [doneTerminator] ∧
    (bedrock_stream_generator true operation events none).chunks
      = events.map (fun e => json_dumps (serialize_event e) ++ "\n") := by
  constructor
  · simp [stream_response_generator, azureRunEvents_fst, doneTerminator]
  · simp [bedrock_stream_generator, bedrockRunEvents_fst]

/-! ## Claim C2 -/

/-- C2: for a cache entry stored by this code (so `expiry` is the
entry's upstream expiration minus 300), `get_credentials` serves the
cached entry with no role-assumption call iff the entry's expiration is
more than the 300-second safety margin away; an entry expiring at
`now + 200` triggers a refresh, one expiring at `now + 400` is served
untouched, and a refresh stores `expiry = fresh.expiration - 300` and
returns the fresh credentials. -/
theorem claim_C2 (arn : String) (h : arn ≠ "") (now : Int) (fresh c : STSCredentials) :
    ((get_credentials (some arn) now fresh ⟨some c, c.expiration - 300⟩).refreshed = false
      ↔ c.expiration - now > 300) ∧
    (c.expiration - now > 300 →
      get_credentials (some arn) now fresh ⟨some c, c.expiration - 300⟩
        = ⟨some c, ⟨some c, c.expiration - 300⟩, false⟩) ∧
    (c.expiration = now + 200 →
      (get_credentials (some arn) now fresh ⟨some c, c.expiration - 300⟩).refreshed = true) ∧
    (c.expiration = now + 400 →
      (get_credentials (some arn) now fresh ⟨some c, c.expiration - 300⟩).result = some c ∧
      (get_credentials (some arn) now fresh ⟨some c, c.expiration - 300⟩).refreshed = false) ∧
    (¬ (c.expiration - now > 300) →
      get_credentials (some arn) now fresh ⟨some c, c.expiration - 300⟩
        = ⟨some fresh, ⟨some fresh, fresh.expiration - 300⟩, true⟩) := by
  have hcfg : roleConfigured (some arn) = true := by simp [roleConfigured, h]
  have key : get_credentials (some arn) now fresh ⟨some c, c.expiration - 300⟩
      = if c.expiration - 300 > now
        then ⟨some c, ⟨some c, c.expiration - 300⟩, false⟩
        else ⟨some fresh, ⟨some fresh, fresh.expiration - 300⟩, true⟩ := by
    simp only [get_credentials, hcfg, Bool.not_true, Bool.false_eq_true, if_false,
      Option.isSome_some, Bool.true_and]
    split
    · rename_i hd
      rw [if_pos (of_decide_eq_true hd)]
    · rename_i hd
      rw [if_neg]
      intro hcontra
      exact absurd (decide_eq_true hcontra) hd
  rw [key]
  by_cases hc : c.expiration - 300 > now
  · rw [if_pos hc]
    refine ⟨⟨fun _ => by omega, fun _ => rfl⟩, fun _ => rfl,
      fun he => absurd hc (by omega), fun _ => ⟨rfl, rfl⟩,
      fun hn => absurd (show c.expiration - now > 300 by omega) hn⟩
  · rw [if_neg hc]
    refine ⟨⟨fun h2 => by simp at h2, fun h2 => absurd (show c.expiration - 300 > now by omega) hc⟩,
      fun h2 => absurd (show c.expiration - 300 > now by omega) hc,
      fun _ => rfl,
      fun he => absurd (show c.expiration - 300 > now by omega) hc,
      fun _ => rfl⟩

/-- C2, witness: a concrete role ARN with one entry expiring 400s from
now (served, no refresh) and one expiring 200s from now (refreshed,
fresh entry stored with its expiration minus 300 and returned). -/
theorem claim_C2_witness :
    (("arn:aws:iam::123456789012:role/proxy" : String) ≠ "") ∧
    (get_credentials (some "arn:aws:iam::123456789012:role/proxy") 1000
        ⟨"AKIA2", "s2", "t2", 4600⟩
        ⟨some ⟨"AKIA1", "s1", "t1", 1400⟩, 1400 - 300⟩).refreshed = false ∧
    (get_credentials (some "arn:aws:iam::123456789012:role/proxy") 1000
        ⟨"AKIA2", "s2", "t2", 4600⟩
        ⟨some ⟨"AKIA1", "s1", "t1", 1400⟩, 1400 - 300⟩).result
      = some ⟨"AKIA1", "s1", "t1", 1400⟩ ∧
    (get_credentials (some "arn:aws:iam::123456789012:role/proxy") 1000
        ⟨"AKIA2", "s2", "t2", 4600⟩
        ⟨some ⟨"AKIA1", "s1", "t1", 1200⟩, 1200 - 300⟩).refreshed = true ∧
    (get_credentials (some "arn:aws:iam::123456789012:role/proxy") 1000
        ⟨"AKIA2", "s2", "t2", 4600⟩
        ⟨some ⟨"AKIA1", "s1", "t1", 1200⟩, 1200 - 300⟩)
      = ⟨some ⟨"AKIA2", "s2", "t2", 4600⟩, ⟨some ⟨"AKIA2", "s2", "t2", 4600⟩, 4600 - 300⟩, true⟩ :=
  ⟨by decide,
   (claim_C2 "arn:aws:iam::123456789012:role/proxy" (by decide) 1000
      ⟨"AKIA2", "s2", "t2", 4600⟩ ⟨"AKIA1", "s1", "t1", 1400⟩).1.mpr (by decide),
   ((claim_C2 "arn:aws:iam::123456789012:role/proxy" (by decide) 1000
      ⟨"AKIA2", "s2", "t2", 4600⟩ ⟨"AKIA1", "s1", "t1", 1400⟩).2.2.2.1 (by decide)).1,
   (claim_C2 "arn:aws:iam::123456789012:role/proxy" (by decide) 1000
      ⟨"AKIA2", "s2", "t2", 4600⟩ ⟨"AKIA1", "s1", "t1", 1200⟩).2.2.1 (by decide),
   (claim_C2 "arn:aws:iam::123456789012:role/proxy" (by decide) 1000
      ⟨"AKIA2", "s2", "t2", 4600⟩ ⟨"AKIA1", "s1", "t1", 1200⟩).2.2.2.2 (by decide)⟩

/-! ## Claim C3 -/

theorem get_append_length {α : Type} (pre : List α) (a : α) (l : List α) :
    (pre ++ a :: l).get? pre.length = some a := by
  induction pre with
  | nil => rfl
  | cons p ps ih => simpa using ih

theorem set_append_length {α : Type} (pre : List α) (a b : α) (l : List α) :
    (pre ++ a :: l).set pre.length b = pre ++ b :: l := by
  induction pre with
  | nil => rfl
  | cons p ps ih => simp [List.set, ih]

/-- First round of an interleaved schedule: every task checks the empty
cache before any refresh completes, so each one suspends into its own
role-assumption call. -/
theorem runSchedule_firstRound (ro : Option String) (now : Int) (fr : STSCredentials)
    (hro : roleConfigured ro = true) (e : Int) :
    ∀ (m : Nat) (pre : List TaskPhase) (r : Nat),
      runSchedule ro now fr ⟨⟨none, e⟩, pre ++ List.replicate m .start, r⟩ (List.range' pre.length m)
        = ⟨⟨none, e⟩, pre ++ List.replicate m .awaitingSts, r + m⟩ := by
  intro m
  induction m with
  | zero => intro pre r; rfl
  | succ k ih =>
    intro pre r
    rw [List.range'_succ]
    show runSchedule ro now fr
        (stepTask ro now fr ⟨⟨none, e⟩, pre ++ List.replicate (k+1) .start, r⟩ pre.length)
        (List.range' (pre.length + 1) k) = _
    have hstep : stepTask ro now fr ⟨⟨none, e⟩, pre ++ List.replicate (k+1) .start, r⟩ pre.length
        = ⟨⟨none, e⟩, (pre ++ [TaskPhase.awaitingSts]) ++ List.replicate k .start, r + 1⟩ := by
      simp only [stepTask, List.replicate_succ, get_append_length, hro, Bool.not_true,
        Bool.false_eq_true, if_false, Option.isSome_none, Bool.false_and]
      rw [set_append_length]
      simp
    rw [hstep]
    have h2 := ih (pre ++ [TaskPhase.awaitingSts]) (r + 1)
    simp only [List.length_append, List.length_cons, List.length_nil, Nat.zero_add] at h2
    rw [h2]
    congr 1
    · simp [List.replicate_succ]
    · omega

/-- Second round: every suspended task completes its own role-assumption
call and writes the cache. -/
theorem runSchedule_secondRound (ro : Option String) (now : Int) (fr : STSCredentials) :
    ∀ (m : Nat) (pre : List TaskPhase) (c : CredsCache) (r : Nat),
      runSchedule ro now fr ⟨c, pre ++ List.replicate (m+1) .awaitingSts, r⟩
          (List.range' pre.length (m+1))
        = ⟨⟨some fr, fr.expiration - 300⟩, pre ++ List.replicate (m+1) (.done (some fr)), r⟩ := by
  intro m
  induction m with
  | zero =>
    intro pre c r
    rw [List.range'_succ]
    show runSchedule ro now fr
        (stepTask ro now fr ⟨c, pre ++ List.replicate 1 .awaitingSts, r⟩ pre.length)
        (List.range' (pre.length + 1) 0) = _
    have hstep : stepTask ro now fr ⟨c, pre ++ List.replicate 1 .awaitingSts, r⟩ pre.length
        = ⟨⟨some fr, fr.expiration - 300⟩, pre ++ List.replicate 1 (.done (some fr)), r⟩ := by
      simp only [stepTask, List.replicate, get_append_length]
      rw [set_append_length]
    rw [hstep]
    rfl
  | succ k ih =>
    intro pre c r
    rw [List.range'_succ]
    show runSchedule ro now fr
        (stepTask ro now fr ⟨c, pre ++ List.replicate (k+2) .awaitingSts, r⟩ pre.length)
        (List.range' (pre.length + 1) (k+1)) = _
    have hstep : stepTask ro now fr ⟨c, pre ++ List.replicate (k+2) .awaitingSts, r⟩ pre.length
        = ⟨⟨some fr, fr.expiration - 300⟩,
           (pre ++ [TaskPhase.done (some fr)]) ++ List.replicate (k+1) .awaitingSts, r⟩ := by
      simp only [stepTask, List.replicate_succ, get_append_length]
      rw [set_append_length]
      simp
    rw [hstep]
    have h2 := ih (pre ++ [TaskPhase.done (some fr)]) ⟨some fr, fr.expiration - 300⟩ r
    simp only [List.length_append, List.length_cons, List.length_nil, Nat.zero_add] at h2
    rw [h2]
    congr 1
    simp [List.replicate_succ]

/-- Sequential schedule: each task runs to completion before the next
starts; after the first refresh populates the cache, every later task is
served from it. -/
theorem runSchedule_sequential (ro : Option String) (now : Int) (fr : STSCredentials)
    (hro : roleConfigured ro = true) (hvalid : fr.expiration - 300 > now) :
    ∀ (m : Nat) (pre : List TaskPhase) (r : Nat),
      runSchedule ro now fr ⟨⟨some fr, fr.expiration - 300⟩, pre ++ List.replicate m .start, r⟩
          ((List.range' pre.length m).flatMap (fun i => [i, i]))
        = ⟨⟨some fr, fr.expiration - 300⟩, pre ++ List.replicate m (.done (some fr)), r⟩ := by
  intro m
  induction m with
  | zero => intro pre r; rfl
  | succ k ih =>
    intro pre r
    rw [List.range'_succ, List.flatMap_cons]
    show runSchedule ro now fr
        (stepTask ro now fr
          (stepTask ro now fr
            ⟨⟨some fr, fr.expiration - 300⟩, pre ++ List.replicate (k+1) .start, r⟩ pre.length)
          pre.length)
        ((List.range' (pre.length + 1) k).flatMap (fun i => [i, i])) = _
    have hstep1 : stepTask ro now fr
        ⟨⟨some fr, fr.expiration - 300⟩, pre ++ List.replicate (k+1) .start, r⟩ pre.length
        = ⟨⟨some fr, fr.expiration - 300⟩,
           pre ++ TaskPhase.done (some fr) :: List.replicate k .start, r⟩ := by
      simp only [stepTask, List.replicate_succ, get_append_length, hro, Bool.not_true,
        Bool.false_eq_true, if_false, Option.isSome_some, Bool.true_and,
        decide_eq_true hvalid, if_true]
      rw [set_append_length]
    have hstep2 : stepTask ro now fr
        ⟨⟨some fr, fr.expiration - 300⟩,
          pre ++ TaskPhase.done (some fr) :: List.replicate k .start, r⟩ pre.length
        = ⟨⟨some fr, fr.expiration - 300⟩,
           (pre ++ [TaskPhase.done (some fr)]) ++ List.replicate k .start, r⟩ := by
      simp only [stepTask, get_append_length]
      simp
    rw [hstep1, hstep2]
    have h2 := ih (pre ++ [TaskPhase.done (some fr)]) r
    simp only [List.length_append, List.length_cons, List.length_nil, Nat.zero_add] at h2
    rw [h2]
    congr 1
    simp [List.replicate_succ]

/-- C3, counterexample: two concurrent callers that both run their cache
check (schedule `[0, 1, ...]`) before either refresh completes trigger TWO
role-assumption calls, not one — `get_credentials` has no lock or
in-flight-future guard between its check and its write. -/
theorem claim_C3_counterexample :
    (runSchedule (some "arn:aws:iam::123456789012:role/proxy") 0 ⟨"AKIA", "s", "t", 3600⟩
        (initWorld 2) [0, 1, 0, 1]).refreshCalls = 2 ∧
    (runSchedule (some "arn:aws:iam::123456789012:role/proxy") 0 ⟨"AKIA", "s", "t", 3600⟩
        (initWorld 2) [0, 1, 0, 1]).tasks
      = [TaskPhase.done (some ⟨"AKIA", "s", "t", 3600⟩),
         TaskPhase.done (some ⟨"AKIA", "s", "t", 3600⟩)] := ⟨rfl, rfl⟩

/-- C3 (amended): the refresh is not single-flight.  With `n + 1` callers
and no valid entry, the fully interleaved schedule (every task passes the
cache check before any refresh completes) performs `n + 1` role-assumption
calls — one per caller — though all callers do return the same fresh
entry; only under a sequential schedule (each caller finishes before the
next checks) does exactly one refresh occur with all callers returning the
same entry. -/
theorem claim_C3_amended (ro : Option String) (now : Int) (fr : STSCredentials) (n : Nat)
    (hro : roleConfigured ro = true) (hvalid : fr.expiration - 300 > now) :
    (runSchedule ro now fr (initWorld (n+1)) (List.range (n+1) ++ List.range (n+1))).refreshCalls
      = n + 1 ∧
    (runSchedule ro now fr (initWorld (n+1)) (List.range (n+1) ++ List.range (n+1))).tasks
      = List.replicate (n+1) (.done (some fr)) ∧
    (runSchedule ro now fr (initWorld (n+1))
        ((List.range (n+1)).flatMap (fun i => [i, i]))).refreshCalls = 1 ∧
    (runSchedule ro now fr (initWorld (n+1))
        ((List.range (n+1)).flatMap (fun i => [i, i]))).tasks
      = List.replicate (n+1) (.done (some fr)) := by
  have hfold : ∀ (w : CredsWorld) (s1 s2 : List Nat),
      runSchedule ro now fr w (s1 ++ s2) = runSchedule ro now fr (runSchedule ro now fr w s1) s2 :=
    fun w s1 s2 => List.foldl_append _ _ s1 s2
  have hfirst := runSchedule_firstRound ro now fr hro 0 (n+1) [] 0
  simp only [List.nil_append, List.length_nil] at hfirst
  have hsecond := runSchedule_secondRound ro now fr n [] ⟨none, 0⟩ (0 + (n+1))
  simp only [List.nil_append, List.length_nil] at hsecond
  have hw : runSchedule ro now fr (initWorld (n+1)) (List.range (n+1) ++ List.range (n+1))
      = ⟨⟨some fr, fr.expiration - 300⟩, List.replicate (n+1) (.done (some fr)), 0 + (n+1)⟩ := by
    rw [hfold, List.range_eq_range']
    show runSchedule ro now fr
        (runSchedule ro now fr ⟨⟨none, 0⟩, List.replicate (n+1) .start, 0⟩ (List.range' 0 (n+1)))
        (List.range' 0 (n+1)) = _
    rw [hfirst, hsecond]
  have hflat : (List.range (n+1)).flatMap (fun i => [i, i])
      = 0 :: 0 :: (List.range' 1 n).flatMap (fun i => [i, i]) := by
    rw [List.range_eq_range', List.range'_succ]
    rfl
  have hstep1 : stepTask ro now fr (initWorld (n+1)) 0
      = ⟨⟨none, 0⟩, TaskPhase.awaitingSts :: List.replicate n .start, 1⟩ := by
    show stepTask ro now fr ⟨⟨none, 0⟩, List.replicate (n+1) .start, 0⟩ 0 = _
    rw [List.replicate_succ]
    simp [stepTask, hro]
  have hstep2 : stepTask ro now fr
      ⟨⟨none, 0⟩, TaskPhase.awaitingSts :: List.replicate n .start, 1⟩ 0
      = ⟨⟨some fr, fr.expiration - 300⟩,
         TaskPhase.done (some fr) :: List.replicate n .start, 1⟩ := rfl
  have hseqrest := runSchedule_sequential ro now fr hro hvalid n [TaskPhase.done (some fr)] 1
  simp only [List.length_cons, List.length_nil, Nat.zero_add] at hseqrest
  have hw2 : runSchedule ro now fr (initWorld (n+1)) ((List.range (n+1)).flatMap (fun i => [i, i]))
      = ⟨⟨some fr, fr.expiration - 300⟩,
         TaskPhase.done (some fr) :: List.replicate n (.done (some fr)), 1⟩ := by
    rw [hflat]
    show runSchedule ro now fr (stepTask ro now fr (stepTask ro now fr (initWorld (n+1)) 0) 0)
        ((List.range' 1 n).flatMap (fun i => [i, i])) = _
    rw [hstep1, hstep2]
    exact hseqrest
  refine ⟨?_, by rw [hw], by rw [hw2], by rw [hw2]; rw [List.replicate_succ]⟩
  rw [hw]
  show 0 + (n + 1) = n + 1
  omega

/-- C3, witness: two concurrent callers with a real role ARN and a fresh
entry valid past the margin — the interleaved schedule performs two
refresh calls, the sequential one a single refresh. -/
theorem claim_C3_witness :
    roleConfigured (some "arn:aws:iam::123456789012:role/proxy") = true ∧
    ((⟨"AKIA", "s", "t", 3600⟩ : STSCredentials).expiration - 300 > 0) ∧
    (runSchedule (some "arn:aws:iam::123456789012:role/proxy") 0 ⟨"AKIA", "s", "t", 3600⟩
        (initWorld 2) (List.range 2 ++ List.range 2)).refreshCalls = 2 ∧
    (runSchedule (some "arn:aws:iam::123456789012:role/proxy") 0 ⟨"AKIA", "s", "t", 3600⟩
        (initWorld 2) ((List.range 2).flatMap (fun i => [i, i]))).refreshCalls = 1 :=
  ⟨by decide, by decide,
   (claim_C3_amended (some "arn:aws:iam::123456789012:role/proxy") 0 ⟨"AKIA", "s", "t", 3600⟩ 1
      (by decide) (by decide)).1,
   (claim_C3_amended (some "arn:aws:iam::123456789012:role/proxy") 0 ⟨"AKIA", "s", "t", 3600⟩ 1
      (by decide) (by decide)).2.2.1⟩

/-! ## Claim C5 -/

theorem bedrockLoopBody_tokens (e : Json) (st : UsageState) :
    (bedrockLoopBody e st).2.input_tokens
      = (if usageBearing e then (metadataTokens e).1 else st.input_tokens) ∧
    (bedrockLoopBody e st).2.output_tokens
      = (if usageBearing e then (metadataTokens e).2 else st.output_tokens) := by
  unfold bedrockLoopBody usageBearing metadataTokens
  cases hmd : e.dictGet "metadata" <;> simp only [hmd, Option.isSome_none, Option.isSome_some,
    if_false, if_true, Bool.false_eq_true] <;> (repeat' split) <;> simp

theorem bedrockRunEvents_snd_append (st : UsageState) (l1 l2 : List Json) :
    (bedrockRunEvents st (l1 ++ l2)).2 = (bedrockRunEvents (bedrockRunEvents st l1).2 l2).2 := by
  induction l1 generalizing st with
  | nil => rfl
  | cons e es ih => simp [bedrockRunEvents, ih]

theorem bedrockRunEvents_tokens_const (st : UsageState) (l : List Json)
    (h : ∀ x ∈ l, usageBearing x = false) :
    (bedrockRunEvents st l).2.input_tokens = st.input_tokens ∧
    (bedrockRunEvents st l).2.output_tokens = st.output_tokens := by
  induction l generalizing st with
  | nil => exact ⟨rfl, rfl⟩
  | cons e es ih =>
    have he := h e (by simp)
    have h1 := bedrockLoopBody_tokens e st
    rw [he] at h1
    simp only [Bool.false_eq_true, if_false] at h1
    have h2 := ih (bedrockLoopBody e st).2 (fun x hx => h x (by simp [hx]))
    show (bedrockRunEvents (bedrockLoopBody e st).2 es).2.input_tokens = _ ∧
      (bedrockRunEvents (bedrockLoopBody e st).2 es).2.output_tokens = _
    rw [h2.1, h2.2, h1.1, h1.2]
    exact ⟨rfl, rfl⟩

theorem azureUsageLogs_of_truthy (u : Json) (h : azureUsageTruthy u = true) :
    azureUsageLogs u = ["Azure Stream Finished (Usage Reported) | Total Tokens: "
      ++ toString ((u.getD "usage" .null).getD "total_tokens" (.num 0)).toIntD] := by
  unfold azureUsageLogs
  unfold azureUsageTruthy at h
  rw [if_pos h]

theorem azureUsageLogs_of_not_truthy (u : Json) (h : azureUsageTruthy u = false) :
    azureUsageLogs u = [] := by
  unfold azureUsageLogs
  unfold azureUsageTruthy at h
  rw [if_neg (by simp [h])]

theorem flatMap_azureUsageLogs_nil (l : List Json) (h : ∀ x ∈ l, azureUsageTruthy x = false) :
    l.flatMap azureUsageLogs = [] := by
  induction l with
  | nil => rfl
  | cons x xs ih =>
    rw [List.flatMap_cons, azureUsageLogs_of_not_truthy x (h x (by simp)),
      ih (fun y hy => h y (by simp [hy]))]
    rfl

/-- C5: last authoritative usage wins.  In a Bedrock stream with at least
one earlier usage-bearing event, the tokens at stream end are exactly the
pair carried by the last usage-bearing event — the loop overwrites
`input_tokens`/`output_tokens` from each `metadata.usage`, taking neither
max nor sum, so a later, lower count replaces an earlier, higher one.  For
the Azure generator, whose usage handling is a per-chunk report, the last
usage log line reports the `total_tokens` of the last usage-bearing chunk. -/
theorem claim_C5 (l1 l2 : List Json) (e : Json)
    (_hprev : ∃ x ∈ l1, usageBearing x = true)
    (he : usageBearing e = true)
    (hafter : ∀ x ∈ l2, usageBearing x = false) :
    ((bedrockRunEvents initUsage (l1 ++ e :: l2)).2.input_tokens,
     (bedrockRunEvents initUsage (l1 ++ e :: l2)).2.output_tokens) = metadataTokens e ∧
    (∀ (m1 : List Json) (u : Json) (m2 : List Json), azureUsageTruthy u = true →
      (∀ x ∈ m2, azureUsageTruthy x = false) →
      ((azureRunEvents (m1 ++ u :: m2)).2.1).getLast?
        = some ("Azure Stream Finished (Usage Reported) | Total Tokens: "
            ++ toString ((u.getD "usage" .null).getD "total_tokens" (.num 0)).toIntD)) := by
  constructor
  · rw [bedrockRunEvents_snd_append]
    have hconst := bedrockRunEvents_tokens_const
      (bedrockLoopBody e (bedrockRunEvents initUsage l1).2).2 l2 hafter
    have hbody := bedrockLoopBody_tokens e (bedrockRunEvents initUsage l1).2
    rw [he] at hbody
    simp only [if_true] at hbody
    show ((bedrockRunEvents (bedrockLoopBody e (bedrockRunEvents initUsage l1).2).2 l2).2.input_tokens,
      (bedrockRunEvents (bedrockLoopBody e (bedrockRunEvents initUsage l1).2).2 l2).2.output_tokens)
      = _
    rw [hconst.1, hconst.2, hbody.1, hbody.2]
  · intro m1 u m2 hu hm2
    rw [azureRunEvents_logs, List.flatMap_append, List.flatMap_cons,
      azureUsageLogs_of_truthy u hu, flatMap_azureUsageLogs_nil m2 hm2, List.append_nil,
      List.getLast?_concat]

/-- C5, witness: an earlier usage event reporting `(10, 10)` followed by a
later one reporting the lower `(3, 2)` ends with `(3, 2)`; an Azure stream
whose only usage chunk reports 42 logs 42 last. -/
theorem claim_C5_witness :
    (∃ x ∈ [Json.obj [("metadata", Json.obj [("usage",
        Json.obj [("inputTokens", Json.num 10), ("outputTokens", Json.num 10)])])]],
      usageBearing x = true) ∧
    usageBearing (Json.obj [("metadata", Json.obj [("usage",
      Json.obj [("inputTokens", Json.num 3), ("outputTokens", Json.num 2)])])]) = true ∧
    ((bedrockRunEvents initUsage
        ([Json.obj [("metadata", Json.obj [("usage",
            Json.obj [("inputTokens", Json.num 10), ("outputTokens", Json.num 10)])])]]
          ++ Json.obj [("metadata", Json.obj [("usage",
              Json.obj [("inputTokens", Json.num 3), ("outputTokens", Json.num 2)])])] :: [])).2.input_tokens,
     (bedrockRunEvents initUsage
        ([Json.obj [("metadata", Json.obj [("usage",
            Json.obj [("inputTokens", Json.num 10), ("outputTokens", Json.num 10)])])]]
          ++ Json.obj [("metadata", Json.obj [("usage",
              Json.obj [("inputTokens", Json.num 3), ("outputTokens", Json.num 2)])])] :: [])).2.output_tokens)
      = ((3 : Int), (2 : Int)) ∧
    ((azureRunEvents ([] ++ Json.obj [("usage", Json.obj [("total_tokens", Json.num 42)])] :: [])).2.1).getLast?
      = some "Azure Stream Finished (Usage Reported) | Total Tokens: 42" :=
  ⟨⟨Json.obj [("metadata", Json.obj [("usage",
      Json.obj [("inputTokens", Json.num 10), ("outputTokens", Json.num 10)])])], by simp, rfl⟩,
   rfl,
   (claim_C5 [Json.obj [("metadata", Json.obj [("usage",
        Json.obj [("inputTokens", Json.num 10), ("outputTokens", Json.num 10)])])]] []
      (Json.obj [("metadata", Json.obj [("usage",
        Json.obj [("inputTokens", Json.num 3), ("outputTokens", Json.num 2)])])])
      ⟨Json.obj [("metadata", Json.obj [("usage",
          Json.obj [("inputTokens", Json.num 10), ("outputTokens", Json.num 10)])])], by simp, rfl⟩
      rfl (fun x hx => absurd hx (List.not_mem_nil x))).1,
   (claim_C5 [Json.obj [("metadata", Json.obj [("usage",
        Json.obj [("inputTokens", Json.num 10), ("outputTokens", Json.num 10)])])]] []
      (Json.obj [("metadata", Json.obj [("usage",
        Json.obj [("inputTokens", Json.num 3), ("outputTokens", Json.num 2)])])])
      ⟨Json.obj [("metadata", Json.obj [("usage",
          Json.obj [("inputTokens", Json.num 10), ("outputTokens", Json.num 10)])])], by simp, rfl⟩
      rfl (fun x hx => absurd hx (List.not_mem_nil x))).2
     [] (Json.obj [("usage", Json.obj [("total_tokens", Json.num 42)])]) [] rfl
     (fun x hx => absurd hx (List.not_mem_nil x))⟩

/-! ## Claim C6 -/

/-- C6: a mid-stream parse anomaly is recovered locally.  An event whose
`chunk.bytes` payload fails `json.loads` is still forwarded as its
serialized JSON line, contributes nothing to the usage/text accumulator
(`except: pass`), and the stream continues: the remaining events are
transcoded exactly as they would be without the malformed element. -/
theorem claim_C6 (e ch : Json) (s : String) (st : UsageState) (rest : List Json)
    (h1 : e.dictGet "chunk" = some ch) (h2 : ch.dictGet "bytes" = some (.bytes s))
    (h3 : json_loads s = none) (h4 : e.dictGet "metadata" = none) :
    bedrockLoopBody e st = (json_dumps (serialize_event e) ++ "\n", st) ∧
    (bedrockRunEvents st (e :: rest)).1
      = (json_dumps (serialize_event e) ++ "\n") :: (bedrockRunEvents st rest).1 ∧
    (bedrockRunEvents st (e :: rest)).2 = (bedrockRunEvents st rest).2 := by
  have hbody : bedrockLoopBody e st = (json_dumps (serialize_event e) ++ "\n", st) := by
    simp only [bedrockLoopBody, h1, h2, h4, loadsOfValue, h3]
  refine ⟨hbody, ?_, ?_⟩ <;> simp [bedrockRunEvents, hbody]

/-- C6, witness: the event `\x7b"chunk": \x7b"bytes": b"oops"\x7d\x7d` — whose
payload is not JSON — is forwarded as its serialized line, leaves the
accumulator untouched, and a following well-formed text chunk is still
processed. -/
theorem claim_C6_witness :
    (Json.obj [("chunk", Json.obj [("bytes", Json.bytes "oops")])]).dictGet "chunk"
      = some (Json.obj [("bytes", Json.bytes "oops")]) ∧
    (Json.obj [("bytes", Json.bytes "oops")]).dictGet "bytes" = some (Json.bytes "oops") ∧
    json_loads "oops" = none ∧
    (Json.obj [("chunk", Json.obj [("bytes", Json.bytes "oops")])]).dictGet "metadata" = none ∧
    bedrockLoopBody (Json.obj [("chunk", Json.obj [("bytes", Json.bytes "oops")])]) initUsage
      = ("\x7b\"chunk\": \x7b\"bytes\": \"oops\"\x7d\x7d\n", initUsage) ∧
    (bedrockRunEvents initUsage
        [Json.obj [("chunk", Json.obj [("bytes", Json.bytes "oops")])],
         Json.obj [("chunk", Json.obj [("bytes",
           Json.bytes "\x7b\"completion\":\"foo\"\x7d")])]]).2.output_text = "foo" :=
  ⟨rfl, rfl, rfl, rfl,
   (claim_C6 (Json.obj [("chunk", Json.obj [("bytes", Json.bytes "oops")])])
      (Json.obj [("bytes", Json.bytes "oops")]) "oops" initUsage
      [Json.obj [("chunk", Json.obj [("bytes", Json.bytes "\x7b\"completion\":\"foo\"\x7d")])]]
      rfl rfl rfl rfl).1,
   by
    rw [(claim_C6 (Json.obj [("chunk", Json.obj [("bytes", Json.bytes "oops")])])
      (Json.obj [("bytes", Json.bytes "oops")]) "oops" initUsage
      [Json.obj [("chunk", Json.obj [("bytes", Json.bytes "\x7b\"completion\":\"foo\"\x7d")])]]
      rfl rfl rfl rfl).2.2]
    rfl⟩

/-! ## Claim C7 -/

theorem lookup_objSet (kvs : List (String × Json)) (k : String) (v : Json) :
    (Json.objSet kvs k v).lookup k = some v := by
  induction kvs with
  | nil => simp [Json.objSet, List.lookup]
  | cons p rest ih =>
    obtain ⟨k', v'⟩ := p
    by_cases hk : k' = k
    · simp [Json.objSet, hk, List.lookup]
    · simp only [Json.objSet, if_neg hk, List.lookup]
      have hbeq : (k == k') = false := beq_eq_false_iff_ne.mpr (Ne.symm hk)
      rw [hbeq]
      exact ih

/-- C7, counterexample: a streaming body whose caller-supplied
`stream_options` is the (truthy) non-dict value `"x"` is passed through
unchanged — `include_usage` is NOT set to true, because the dispatcher
only assigns into `stream_options` when `isinstance(body["stream_options"], dict)`
holds.  This refutes "overriding any conflicting caller-supplied value of
stream_options". -/
theorem claim_C7_counterexample :
    ((Json.obj [("stream", Json.bool true), ("stream_options", Json.str "x")]).getD
        "stream" (.bool false)).truthy = true ∧
    azureEnsureStreamOptions (Json.obj [("stream", Json.bool true), ("stream_options", Json.str "x")])
      = Json.obj [("stream", Json.bool true), ("stream_options", Json.str "x")] ∧
    ((azureEnsureStreamOptions
        (Json.obj [("stream", Json.bool true), ("stream_options", Json.str "x")])).getD
          "stream_options" .null).dictGet "include_usage" = none := ⟨rfl, rfl, rfl⟩

/-- C7 (amended): for a streaming body the dispatcher inserts
`stream_options = \x7b"include_usage": true\x7d` when the key is absent, and
overwrites `include_usage` to true in place when the present value is a
dict (overriding a conflicting dict-valued setting); a present non-dict
`stream_options` is left unchanged and no `include_usage` is set.
Non-streaming bodies are left entirely unchanged. -/
theorem claim_C7_amended :
    (∀ (kvs : List (String × Json)),
      ((Json.obj kvs).getD "stream" (.bool false)).truthy = true →
      (Json.obj kvs).dictGet "stream_options" = none →
      (azureEnsureStreamOptions (Json.obj kvs)).dictGet "stream_options"
        = some (Json.obj [("include_usage", Json.bool true)])) ∧
    (∀ (kvs so : List (String × Json)),
      ((Json.obj kvs).getD "stream" (.bool false)).truthy = true →
      (Json.obj kvs).dictGet "stream_options" = some (Json.obj so) →
      (azureEnsureStreamOptions (Json.obj kvs)).dictGet "stream_options"
        = some (Json.obj (Json.objSet so "include_usage" (Json.bool true))) ∧
      (Json.obj (Json.objSet so "include_usage" (Json.bool true))).dictGet "include_usage"
        = some (Json.bool true)) ∧
    (∀ (kvs : List (String × Json)) (so : Json),
      ((Json.obj kvs).getD "stream" (.bool false)).truthy = true →
      (Json.obj kvs).dictGet "stream_options" = some so → so.isObj = false →
      azureEnsureStreamOptions (Json.obj kvs) = Json.obj kvs) ∧
    (∀ (body : Json), (body.getD "stream" (.bool false)).truthy = false →
      azureEnsureStreamOptions body = body) := by
  refine ⟨?_, ?_, ?_, ?_⟩
  · intro kvs hs hnone
    simp only [azureEnsureStreamOptions, hs, if_true, hnone]
    show (Json.obj (Json.objSet kvs "stream_options" _)).dictGet "stream_options" = _
    simp only [Json.dictGet, lookup_objSet]
  · intro kvs so hs hso
    simp only [azureEnsureStreamOptions, hs, if_true, hso]
    constructor
    · show (Json.obj (Json.objSet kvs "stream_options" _)).dictGet "stream_options" = _
      simp only [Json.dictGet, lookup_objSet]
    · simp only [Json.dictGet, lookup_objSet]
  · intro kvs so hs hso hobj
    simp only [azureEnsureStreamOptions, hs, if_true, hso]
    cases so <;> simp_all [Json.isObj]
  · intro body hb
    simp only [azureEnsureStreamOptions, hb, Bool.false_eq_true, if_false]

/-- C7, witness: concrete bodies for all four cases — absent
`stream_options` (inserted), dict `stream_options` with a conflicting
`include_usage: false` (overridden to true), non-dict `stream_options`
(left alone), and a non-streaming body (unchanged). -/
theorem claim_C7_witness :
    ((Json.obj [("stream", Json.bool true)]).getD "stream" (.bool false)).truthy = true ∧
    (azureEnsureStreamOptions (Json.obj [("stream", Json.bool true)])).dictGet "stream_options"
      = some (Json.obj [("include_usage", Json.bool true)]) ∧
    (azureEnsureStreamOptions (Json.obj [("stream", Json.bool true),
        ("stream_options", Json.obj [("include_usage", Json.bool false)])])).dictGet
        "stream_options"
      = some (Json.obj [("include_usage", Json.bool true)]) ∧
    azureEnsureStreamOptions (Json.obj [("stream", Json.bool true),
        ("stream_options", Json.str "x")])
      = Json.obj [("stream", Json.bool true), ("stream_options", Json.str "x")] ∧
    azureEnsureStreamOptions (Json.obj [("stream", Json.bool false),
        ("stream_options", Json.obj [])])
      = Json.obj [("stream", Json.bool false), ("stream_options", Json.obj [])] :=
  ⟨rfl,
   claim_C7_amended.1 [("stream", Json.bool true)] rfl rfl,
   (claim_C7_amended.2.1 [("stream", Json.bool true),
      ("stream_options", Json.obj [("include_usage", Json.bool false)])]
      [("include_usage", Json.bool false)] rfl rfl).1,
   claim_C7_amended.2.2.1 [("stream", Json.bool true), ("stream_options", Json.str "x")]
     (Json.str "x") rfl rfl rfl,
   claim_C7_amended.2.2.2 (Json.obj [("stream", Json.bool false),
     ("stream_options", Json.obj [])]) rfl⟩

/-! ## Claim C8 -/

/-- C8: a `chunk.bytes` payload that parses as JSON contributes text by
the priority order `outputText`, else `completion`, else `delta.text`
(first match wins, as `bedrockChunkText` words the specification's order);
the concrete event `\x7b"chunk": \x7b"bytes": b"\x7b\"completion\": \"foo\"\x7d"\x7d\x7d`
is emitted as one JSON line with the bytes decoded to text and leaves
`output_text = "foo"`; and a `contentBlockDelta.delta.text` event appends
its text. -/
theorem claim_C8 :
    (∀ (e ch : Json) (s : String) (data : Json) (st : UsageState),
      e.dictGet "chunk" = some ch → ch.dictGet "bytes" = some (.bytes s) →
      json_loads s = some data → e.dictGet "metadata" = none →
      bedrockLoopBody e st
        = (json_dumps (serialize_event e) ++ "\n",
           { st with output_text := st.output_text ++ bedrockChunkText data })) ∧
    (∀ (e cbd t : Json) (st : UsageState),
      e.dictGet "chunk" = none → e.dictGet "contentBlockDelta" = some cbd →
      (cbd.getD "delta" (.obj [])).dictGet "text" = some t → e.dictGet "metadata" = none →
      bedrockLoopBody e st
        = (json_dumps (serialize_event e) ++ "\n",
           { st with output_text := st.output_text ++ t.asString })) ∧
    serialize_event
        (Json.obj [("chunk", Json.obj [("bytes", Json.bytes "\x7b\"completion\":\"foo\"\x7d")])])
      = Json.obj [("chunk", Json.obj [("bytes", Json.str "\x7b\"completion\":\"foo\"\x7d")])] ∧
    bedrockRunEvents initUsage
        [Json.obj [("chunk", Json.obj [("bytes", Json.bytes "\x7b\"completion\":\"foo\"\x7d")])]]
      = (["\x7b\"chunk\": \x7b\"bytes\": \"\x7b\\\"completion\\\":\\\"foo\\\"\x7d\"\x7d\x7d\n"],
         ⟨0, 0, "foo"⟩) := by
  refine ⟨?_, ?_, rfl, rfl⟩
  · intro e ch s data st h1 h2 h3 h4
    simp only [bedrockLoopBody, h1, h2, h4, loadsOfValue, h3, bedrockChunkText]
    cases hot : data.dictGet "outputText" with
    | some v => simp
    | none =>
      cases hcomp : data.dictGet "completion" with
      | some v => simp
      | none =>
        cases hd : data.dictGet "delta" with
        | none => simp
        | some d =>
          cases ht : d.dictGet "text" with
          | some t => simp [ht]
          | none => simp [ht]
  · intro e cbd t st h1 h2 h3 h4
    simp only [bedrockLoopBody, h1, h2, h3, h4]

/-- C8, witness: a payload carrying both `outputText` and `completion`
contributes the `outputText` value (first match wins), and a
`contentBlockDelta` event appends its delta text. -/
theorem claim_C8_witness :
    json_loads "\x7b\"outputText\":\"A\",\"completion\":\"B\"\x7d"
      = some (Json.obj [("outputText", Json.str "A"), ("completion", Json.str "B")]) ∧
    bedrockLoopBody
        (Json.obj [("chunk", Json.obj [("bytes",
          Json.bytes "\x7b\"outputText\":\"A\",\"completion\":\"B\"\x7d")])]) initUsage
      = ("\x7b\"chunk\": \x7b\"bytes\": \"\x7b\\\"outputText\\\":\\\"A\\\",\\\"completion\\\":\\\"B\\\"\x7d\"\x7d\x7d\n",
         ⟨0, 0, "A"⟩) ∧
    bedrockLoopBody
        (Json.obj [("contentBlockDelta", Json.obj [("delta",
          Json.obj [("text", Json.str "hi")])])]) initUsage
      = ("\x7b\"contentBlockDelta\": \x7b\"delta\": \x7b\"text\": \"hi\"\x7d\x7d\x7d\n",
         ⟨0, 0, "hi"⟩) :=
  ⟨rfl,
   claim_C8.1
     (Json.obj [("chunk", Json.obj [("bytes",
       Json.bytes "\x7b\"outputText\":\"A\",\"completion\":\"B\"\x7d")])])
     (Json.obj [("bytes", Json.bytes "\x7b\"outputText\":\"A\",\"completion\":\"B\"\x7d")])
     "\x7b\"outputText\":\"A\",\"completion\":\"B\"\x7d"
     (Json.obj [("outputText", Json.str "A"), ("completion", Json.str "B")])
     initUsage rfl rfl rfl rfl,
   claim_C8.2.1
     (Json.obj [("contentBlockDelta", Json.obj [("delta", Json.obj [("text", Json.str "hi")])])])
     (Json.obj [("delta", Json.obj [("text", Json.str "hi")])])
     (Json.str "hi") initUsage rfl rfl rfl rfl⟩

/-! ## Claim C9 -/

theorem specInsertAll_eq (l : List Char) :
    specSnakeTransform.specInsertAll l
      = l.flatMap (fun d => if d.isUpper then ['_', d] else [d]) := by
  induction l with
  | nil => rfl
  | cons c rest ih => simp [specSnakeTransform.specInsertAll, ih]

theorem specInsert_eq (l : List Char) :
    specSnakeTransform.specInsert l = insertUnderscores l := by
  cases l with
  | nil => rfl
  | cons c rest => simp [specSnakeTransform.specInsert, insertUnderscores, specInsertAll_eq]

theorem specLower_eq (l : List Char) :
    specSnakeTransform.specLower l
      = (l.map Char.toLower).map (fun c => if c = '-' then '_' else c) := by
  induction l with
  | nil => rfl
  | cons c rest ih => simp [specSnakeTransform.specLower, ih]

/-- C9: `operation_to_method` coincides pointwise with the
transform as the specification describes it (underscore before each
interior uppercase letter, lowercase, `-` to `_`); `"ConverseStream"`
maps to `converse_stream` and `"InvokeModel"` to `invoke_model`; and an
operation whose resulting method name is not offered by the client object
is the 404-equivalent lookup miss. -/
theorem claim_C9 :
    (∀ op : String, operation_to_method op = specSnakeTransform op) ∧
    operation_to_method "ConverseStream" = "converse_stream" ∧
    operation_to_method "InvokeModel" = "invoke_model" ∧
    (∀ (avail : List String) (op : String), operation_to_method op ∉ avail →
      bedrockLookupMethod avail op = none) := by
  refine ⟨?_, rfl, rfl, ?_⟩
  · intro op
    unfold operation_to_method specSnakeTransform
    rw [specInsert_eq, specLower_eq]
  · intro avail op h
    unfold bedrockLookupMethod
    rw [if_neg]
    intro hc
    exact h (List.elem_iff.mp hc)

/-- C9, witness: against a client offering `invoke_model` and `converse`,
the operation `"ConverseStream"` resolves to the absent `converse_stream`
and the lookup misses. -/
theorem claim_C9_witness :
    operation_to_method "ConverseStream" ∉ ["invoke_model", "converse"] ∧
    bedrockLookupMethod ["invoke_model", "converse"] "ConverseStream" = none :=
  ⟨by decide, claim_C9.2.2.2 ["invoke_model", "converse"] "ConverseStream" (by decide)⟩

/-! ## Claim C10 -/

theorem char_isUpper_iff (c : Char) : c.isUpper = true ↔ 65 ≤ c.toNat ∧ 90 ≥ c.toNat := by
  simp only [Char.isUpper, Bool.and_eq_true, decide_eq_true_eq]
  exact Iff.rfl

theorem isUpper_toLower (c : Char) : (Char.toLower c).isUpper = false := by
  simp only [Char.toLower]
  split
  · rename_i h
    have hvalid : (c.toNat + 32).isValidChar := Or.inl (by omega)
    have hv : (Char.ofNat (c.toNat + 32)).toNat = c.toNat + 32 := by
      rw [Char.ofNat, dif_pos hvalid]; rfl
    rw [Bool.eq_false_iff]
    intro hu
    have h2 := (char_isUpper_iff _).mp hu
    rw [hv] at h2
    omega
  · rename_i h
    rw [Bool.eq_false_iff]
    intro hu
    exact h ((char_isUpper_iff c).mp hu)

theorem toLower_of_not_isUpper (c : Char) (h : c.isUpper = false) : Char.toLower c = c := by
  simp only [Char.toLower]
  rw [if_neg]
  intro hc
  rw [← Bool.not_eq_true] at h
  exact h ((char_isUpper_iff c).mpr ⟨hc.1, hc.2⟩)

theorem otm_char_prop (c : Char) :
    ((if Char.toLower c = '-' then '_' else Char.toLower c).isUpper = false) ∧
    (if Char.toLower c = '-' then '_' else Char.toLower c) ≠ '-' := by
  by_cases h : Char.toLower c = '-'
  · rw [if_pos h]
    exact ⟨by decide, by decide⟩
  · rw [if_neg h]
    exact ⟨isUpper_toLower c, h⟩

theorem mem_otm_data (s : String) : ∀ c ∈ (operation_to_method s).data,
    c.isUpper = false ∧ c ≠ '-' := by
  intro c h
  unfold operation_to_method at h
  simp only [List.map_map] at h
  obtain ⟨d, hd, rfl⟩ := List.mem_map.mp h
  exact otm_char_prop d

theorem flatMap_no_upper (l : List Char) (h : ∀ c ∈ l, c.isUpper = false) :
    l.flatMap (fun d => if d.isUpper then ['_', d] else [d]) = l := by
  induction l with
  | nil => rfl
  | cons c rest ih =>
    rw [List.flatMap_cons, if_neg (by simp [h c (by simp)]),
      ih (fun d hd => h d (by simp [hd]))]
    rfl

theorem insertUnderscores_of_noUpper (l : List Char) (h : ∀ c ∈ l, c.isUpper = false) :
    insertUnderscores l = l := by
  cases l with
  | nil => rfl
  | cons c rest =>
    simp only [insertUnderscores]
    rw [flatMap_no_upper rest (fun d hd => h d (by simp [hd]))]

theorem map_toLower_id (l : List Char) (h : ∀ c ∈ l, c.isUpper = false) :
    l.map Char.toLower = l := by
  induction l with
  | nil => rfl
  | cons c rest ih =>
    rw [List.map_cons, toLower_of_not_isUpper c (h c (by simp)),
      ih (fun d hd => h d (by simp [hd]))]

theorem map_repl_id (l : List Char) (h : ∀ c ∈ l, c ≠ '-') :
    l.map (fun c => if c = '-' then '_' else c) = l := by
  induction l with
  | nil => rfl
  | cons c rest ih =>
    rw [List.map_cons, if_neg (h c (by simp)), ih (fun d hd => h d (by simp [hd]))]

/-- C10: `operation_to_method` is idempotent — its output contains no
ASCII uppercase letter and no `-`, so a second application inserts no
underscore, lowercases nothing and replaces nothing; in particular a name
already in lowercase snake_case such as `invoke_model` passes through
unchanged, so callers may supply either PascalCase or snake_case. -/
theorem claim_C10 :
    (∀ s : String, operation_to_method (operation_to_method s) = operation_to_method s) ∧
    operation_to_method "invoke_model" = "invoke_model" := by
  refine ⟨?_, rfl⟩
  intro s
  have hm := mem_otm_data s
  generalize hgen : operation_to_method s = t at *
  obtain ⟨l⟩ := t
  show operation_to_method (String.mk l) = String.mk l
  unfold operation_to_method
  rw [show (String.mk l).data = l from rfl,
    insertUnderscores_of_noUpper l (fun c hc => (hm c hc).1),
    map_toLower_id l (fun c hc => (hm c hc).1)]
  simp only [map_repl_id l (fun c hc => (hm c hc).2)]
